import Mathlib

/-!
Verification of the document-synchronization and ranked-retrieval core of
`elasticsearch-django` against its specification.  The persisted data model
(`SearchQuery`), the `SearchDocumentMixin` write operations and the manager's
ranked-retrieval query are embedded shallowly; the thin management-command
boundary is embedded from `elasticsearch_django/management/commands/__init__.py`.
-/

namespace ESDjango

/-- A Python runtime value as it appears in query bodies, hit lists and search
documents.  `pyDate` carries the date's ISO-8601 form, `pyDecimal` the decimal's
string form, `pyExotic` the generic `str()` representation of any other
non-JSON-native value. -/
inductive PyValue where
  | pyNone : PyValue
  | pyBool (b : Bool) : PyValue
  | pyInt (n : Int) : PyValue
  | pyStr (s : String) : PyValue
  | pyList (xs : List PyValue) : PyValue
  | pyDict (kvs : List (String × PyValue)) : PyValue
  | pyDate (iso : String) : PyValue
  | pyDecimal (d : String) : PyValue
  | pyExotic (r : String) : PyValue
deriving Repr

mutual

/-- Boolean structural equality on `PyValue`. -/
def beqPy : PyValue → PyValue → Bool
  | .pyNone, .pyNone => true
  | .pyBool a, .pyBool b => a == b
  | .pyInt a, .pyInt b => a == b
  | .pyStr a, .pyStr b => a == b
  | .pyList xs, .pyList ys => beqPyList xs ys
  | .pyDict xs, .pyDict ys => beqPyDict xs ys
  | .pyDate a, .pyDate b => a == b
  | .pyDecimal a, .pyDecimal b => a == b
  | .pyExotic a, .pyExotic b => a == b
  | _, _ => false

def beqPyList : List PyValue → List PyValue → Bool
  | [], [] => true
  | x :: xs, y :: ys => beqPy x y && beqPyList xs ys
  | _, _ => false

def beqPyDict : List (String × PyValue) → List (String × PyValue) → Bool
  | [], [] => true
  | (k1, v1) :: xs, (k2, v2) :: ys => k1 == k2 && beqPy v1 v2 && beqPyDict xs ys
  | _, _ => false

end

mutual

/-- Whether a value is natively JSON-serializable: `None`, booleans, integers,
strings, and lists/dicts of serializable values encode without error; dates,
decimals and exotic objects make the JSON encoder raise. -/
def isJsonSerializable : PyValue → Bool
  | .pyNone => true
  | .pyBool _ => true
  | .pyInt _ => true
  | .pyStr _ => true
  | .pyList xs => listSerializable xs
  | .pyDict kvs => dictSerializable kvs
  | .pyDate _ => false
  | .pyDecimal _ => false
  | .pyExotic _ => false

def listSerializable : List PyValue → Bool
  | [] => true
  | x :: xs => isJsonSerializable x && listSerializable xs

def dictSerializable : List (String × PyValue) → Bool
  | [] => true
  | (_, v) :: kvs => isJsonSerializable v && dictSerializable kvs

end

mutual

theorem beqPy_sound : ∀ a b, beqPy a b = true → a = b
  | .pyNone, b => by cases b <;> simp [beqPy]
  | .pyBool x, b => by cases b <;> simp [beqPy]
  | .pyInt x, b => by cases b <;> simp [beqPy]
  | .pyStr x, b => by cases b <;> simp [beqPy]
  | .pyList xs, b => by
      cases b <;> simp [beqPy]
      exact fun h => beqPyList_sound xs _ h
  | .pyDict xs, b => by
      cases b <;> simp [beqPy]
      exact fun h => beqPyDict_sound xs _ h
  | .pyDate x, b => by cases b <;> simp [beqPy]
  | .pyDecimal x, b => by cases b <;> simp [beqPy]
  | .pyExotic x, b => by cases b <;> simp [beqPy]

theorem beqPyList_sound : ∀ xs ys, beqPyList xs ys = true → xs = ys
  | [], ys => by cases ys <;> simp [beqPyList]
  | x :: xs, ys => by
      cases ys with
      | nil => simp [beqPyList]
      | cons y ys =>
        simp only [beqPyList, Bool.and_eq_true]
        exact fun ⟨h1, h2⟩ => by
          rw [beqPy_sound x y h1, beqPyList_sound xs ys h2]

theorem beqPyDict_sound : ∀ xs ys, beqPyDict xs ys = true → xs = ys
  | [], ys => by cases ys <;> simp [beqPyDict]
  | (k1, v1) :: xs, ys => by
      cases ys with
      | nil => simp [beqPyDict]
      | cons p ys =>
        obtain ⟨k2, v2⟩ := p
        simp only [beqPyDict, Bool.and_eq_true, beq_iff_eq]
        exact fun ⟨⟨hk, h1⟩, h2⟩ => by
          rw [hk, beqPy_sound v1 v2 h1, beqPyDict_sound xs ys h2]

end

mutual

theorem beqPy_refl : ∀ a, beqPy a a = true
  | .pyNone => rfl
  | .pyBool x => by simp [beqPy]
  | .pyInt x => by simp [beqPy]
  | .pyStr x => by simp [beqPy]
  | .pyList xs => beqPyList_refl xs
  | .pyDict xs => beqPyDict_refl xs
  | .pyDate x => by simp [beqPy]
  | .pyDecimal x => by simp [beqPy]
  | .pyExotic x => by simp [beqPy]

theorem beqPyList_refl : ∀ xs, beqPyList xs xs = true
  | [] => rfl
  | x :: xs => by
      simp only [beqPyList, Bool.and_eq_true]
      exact ⟨beqPy_refl x, beqPyList_refl xs⟩

theorem beqPyDict_refl : ∀ xs, beqPyDict xs xs = true
  | [] => rfl
  | (k, v) :: xs => by
      simp only [beqPyDict, Bool.and_eq_true]
      exact ⟨⟨by simp, beqPy_refl v⟩, beqPyDict_refl xs⟩

end

instance : DecidableEq PyValue := fun a b =>
  if h : beqPy a b = true then .isTrue (beqPy_sound a b h)
  else .isFalse (fun he => h (he ▸ beqPy_refl a))

/-- Look a key up in a dict body (first binding wins, as in a Python dict
rendered as an association list). -/
def dictGet (kvs : List (String × PyValue)) (k : String) : Option PyValue :=
  match kvs with
  | [] => none
  | (k2, v) :: rest => if k2 = k then some v else dictGet rest k

mutual

/-- Modelled from the spec: the pre-save serialization fallback applied by the
Search Query Log (the `SearchQuery.save` cleaning pass of
`elasticsearch_django.models`, absent from the sources).  It recursively walks a
value and replaces every value that is not natively JSON-serializable with its
string form: dates become their ISO-8601 string, decimals their decimal string,
and any other exotic value its generic string representation.  It never raises:
it is a total function. -/
def coerceValue : PyValue → PyValue
  | .pyNone => .pyNone
  | .pyBool b => .pyBool b
  | .pyInt n => .pyInt n
  | .pyStr s => .pyStr s
  | .pyList xs => .pyList (coerceList xs)
  | .pyDict kvs => .pyDict (coerceDict kvs)
  | .pyDate iso => .pyStr iso
  | .pyDecimal d => .pyStr d
  | .pyExotic r => .pyStr r

def coerceList : List PyValue → List PyValue
  | [] => []
  | x :: xs => coerceValue x :: coerceList xs

def coerceDict : List (String × PyValue) → List (String × PyValue)
  | [] => []
  | (k, v) :: kvs => (k, coerceValue v) :: coerceDict kvs

end

/-- The persisted Search Query record fields touched by the save-time cleaning
pass: the raw query body and the raw response hits. -/
structure SearchQueryRecord where
  index : String
  query : PyValue
  hits : PyValue
  total_hits : Int
  reference : String

/-- Modelled from the spec: persisting a Search Query record applies the
serialization fallback to the query body and the hits before writing; all other
fields are stored as given.  Reloading the record hands back exactly what was
stored. -/
def saveSearchQuery (sq : SearchQueryRecord) : SearchQueryRecord :=
  { sq with query := coerceValue sq.query, hits := coerceValue sq.hits }

mutual

theorem coerceValue_serializable : ∀ v, isJsonSerializable (coerceValue v) = true
  | .pyNone => rfl
  | .pyBool _ => rfl
  | .pyInt _ => rfl
  | .pyStr _ => rfl
  | .pyList xs => coerceList_serializable xs
  | .pyDict kvs => coerceDict_serializable kvs
  | .pyDate _ => rfl
  | .pyDecimal _ => rfl
  | .pyExotic _ => rfl

theorem coerceList_serializable :
    ∀ xs, isJsonSerializable (.pyList (coerceList xs)) = true
  | [] => rfl
  | x :: xs => by
      simp only [coerceList, isJsonSerializable, listSerializable, Bool.and_eq_true]
      exact ⟨coerceValue_serializable x, coerceList_serializable xs⟩

theorem coerceDict_serializable :
    ∀ kvs, isJsonSerializable (.pyDict (coerceDict kvs)) = true
  | [] => rfl
  | (k, v) :: kvs => by
      simp only [coerceDict, isJsonSerializable, dictSerializable, Bool.and_eq_true]
      exact ⟨coerceValue_serializable v, coerceDict_serializable kvs⟩

end

theorem coerceDict_dictGet (kvs : List (String × PyValue)) (k : String) :
    dictGet (coerceDict kvs) k = (dictGet kvs k).map coerceValue := by
  induction kvs with
  | nil => rfl
  | cons kv rest ih =>
    obtain ⟨k2, v⟩ := kv
    by_cases h : k2 = k <;> simp [coerceDict, dictGet, h, ih]

/-- A search document: a mapping from field name to value, sent to the engine
as the body of an `index` or `update` call. -/
abbrev SearchDocument := List (String × PyValue)

/-- An indexable entity as the `SearchDocumentMixin` operations see it: a
primary key, the deterministic Sync Cache key (`search_document_cache_key`),
the instance's current field values (`getattr`), and the entity type's
`as_search_document` contract producing the full document for a named index. -/
structure Entity where
  pk : Int
  cacheKey : String
  attrs : List (String × PyValue)
  asSearchDocument : String → SearchDocument

/-- `getattr(entity, field)`: the instance's current value for a field. -/
def attrGet (e : Entity) (f : String) : Option PyValue :=
  match e.attrs.find? (fun kv => kv.1 == f) with
  | some kv => some kv.2
  | none => none

/-- Modelled from the spec: `_is_field_serializable` — a field is serializable
iff attempting to encode its current value as JSON succeeds; a runtime,
value-dependent check.  (The `SearchDocumentMixin` body of
`elasticsearch_django.models` is absent from the sources.) -/
def isFieldSerializable (e : Entity) (f : String) : Bool :=
  match attrGet e f with
  | some v => isJsonSerializable v
  | none => false

/-- One call reaching the search-engine transport. -/
inductive EngineCall where
  | indexCall (index : String) (id : Int) (body : SearchDocument)
  | updateCall (index : String) (id : Int) (body : SearchDocument)
  | deleteCall (index : String) (id : Int)
deriving Repr, DecidableEq

/-- The Sync Cache: an association from cache key to the last successfully
written document. -/
abbrev SyncCache := List (String × SearchDocument)

def cacheGet (c : SyncCache) (k : String) : Option SearchDocument :=
  match c with
  | [] => none
  | (k2, d) :: rest => if k2 = k then some d else cacheGet rest k

def cacheSet (c : SyncCache) (k : String) (d : SearchDocument) : SyncCache :=
  (k, d) :: c.filter (fun kv => kv.1 ≠ k)

def cacheDel (c : SyncCache) (k : String) : SyncCache :=
  c.filter (fun kv => kv.1 ≠ k)

/-- The world a Document Writer operation acts on: the Sync Cache and the
(ordered) log of engine calls made so far. -/
structure WriterState where
  cache : SyncCache
  calls : List EngineCall

/-- Why a write operation did or did not reach the engine: it wrote, it was
suppressed as a duplicate (Sync Cache hit), or the update document was empty
(nothing requested was eligible). -/
inductive WriteReason where
  | wrote
  | skippedDuplicate
  | skippedEmpty
deriving Repr, DecidableEq

/-- Modelled from the spec: `index_search_document` — build the full document;
if the Sync Cache reports a duplicate (stored value equals the new document),
skip the network call; else call engine `index` and update the Sync Cache.
(The `SearchDocumentMixin` body of `elasticsearch_django.models` is absent from
the sources; this follows the spec's Document Writer state machine and
`test_index_search_document` / `test_index_search_document_cached`.) -/
def indexSearchDocument (e : Entity) (index : String) (s : WriterState) :
    WriterState × WriteReason :=
  let newDoc := e.asSearchDocument index
  if cacheGet s.cache e.cacheKey = some newDoc then
    (s, .skippedDuplicate)
  else
    ({ cache := cacheSet s.cache e.cacheKey newDoc,
       calls := s.calls ++ [.indexCall index e.pk newDoc] }, .wrote)

/-- Modelled from the spec: `delete_search_document` — call engine `delete` and
unconditionally invalidate the Sync Cache entry, regardless of whether the
engine call succeeds (`engineOk` is the engine outcome, propagated to the
caller).  (The `SearchDocumentMixin` body of `elasticsearch_django.models` is
absent from the sources; this follows the spec's delete rule and
`test_delete_search_document`.) -/
def deleteSearchDocument (e : Entity) (index : String) (engineOk : Bool)
    (s : WriterState) : WriterState × Bool :=
  ({ cache := cacheDel s.cache e.cacheKey,
     calls := s.calls ++ [.deleteCall index e.pk] }, engineOk)

/-- The `InvalidUpdate` error: a requested update field is declared in the
index mapping but is not serializable on this instance. -/
inductive UpdateError where
  | invalidUpdate (field : String)
deriving Repr, DecidableEq

/-- Modelled from the spec: `clean_update_fields` — intersect the requested
fields with the index's declared mapping properties (`props`, the
`get_model_index_properties` result); a requested field outside the mapping is
silently dropped; a requested field inside the mapping that is not serializable
on this instance is a hard `InvalidUpdate` error.  (The `SearchDocumentMixin`
body of `elasticsearch_django.models` is absent from the sources; this follows
spec §4.2 and `test_clean_update_fields`.) -/
def cleanUpdateFields (e : Entity) (props update_fields : List String) :
    Except UpdateError (List String) :=
  let clean := update_fields.filter (fun f => props.contains f)
  match clean.find? (fun f => ! isFieldSerializable e f) with
  | some f => .error (.invalidUpdate f)
  | none => .ok clean

/-- The configured update strategy (`UPDATE_STRATEGY` setting). -/
inductive UpdateStrategy where
  | UPDATE_STRATEGY_FULL
  | UPDATE_STRATEGY_PARTIAL
deriving Repr, DecidableEq

/-- Modelled from the spec: `as_search_document_update` — with the FULL
strategy, ignore `update_fields` and return the complete `as_search_document`
output; with the PARTIAL strategy, return the cleaned subset of the requested
fields, each mapped to the entity's current value.  (The `SearchDocumentMixin`
body of `elasticsearch_django.models` is absent from the sources; this follows
spec §4.2 and `test_as_search_document_update_full` / `..._partial`.) -/
def asSearchDocumentUpdate (e : Entity) (strategy : UpdateStrategy)
    (index : String) (props update_fields : List String) :
    Except UpdateError SearchDocument :=
  match strategy with
  | .UPDATE_STRATEGY_FULL => .ok (e.asSearchDocument index)
  | .UPDATE_STRATEGY_PARTIAL =>
    (cleanUpdateFields e props update_fields).map
      (fun fs => fs.filterMap (fun f => (attrGet e f).map (fun v => (f, v))))

/-- Overwrite the fields of `base` with the fields of `upd` (the merged
representation the Sync Cache keeps after a partial update). -/
def mergeDoc (base upd : SearchDocument) : SearchDocument :=
  base.filter (fun kv => ! upd.any (fun kv2 => kv2.1 == kv.1)) ++ upd

/-- Modelled from the spec: `update_search_document` — build the update
document via the strategy; if it is empty, skip the network call entirely
(distinct from the duplicate skip); else call engine `update` with the partial
body and refresh the Sync Cache with the merged representation when the full
document is known, else with the partial document.  (The `SearchDocumentMixin`
body of `elasticsearch_django.models` is absent from the sources; this follows
spec §4.4 and `test_update_search_document` / `..._empty`.) -/
def updateSearchDocument (e : Entity) (index : String) (strategy : UpdateStrategy)
    (props update_fields : List String) (s : WriterState) :
    Except UpdateError (WriterState × WriteReason) :=
  match asSearchDocumentUpdate e strategy index props update_fields with
  | .error err => .error err
  | .ok doc =>
    if doc = [] then .ok (s, .skippedEmpty)
    else
      let refreshed := match cacheGet s.cache e.cacheKey with
        | some full => mergeDoc full doc
        | none => doc
      .ok ({ cache := cacheSet s.cache e.cacheKey refreshed,
             calls := s.calls ++ [.updateCall index e.pk doc] }, .wrote)

theorem cacheGet_cacheSet_self (c : SyncCache) (k : String) (d : SearchDocument) :
    cacheGet (cacheSet c k d) k = some d := by
  simp [cacheSet, cacheGet]

theorem cacheGet_cacheDel_self (c : SyncCache) (k : String) :
    cacheGet (cacheDel c k) k = none := by
  induction c with
  | nil => rfl
  | cons kv rest ih =>
    obtain ⟨k2, d⟩ := kv
    by_cases h : k2 = k <;> simp [cacheDel, cacheGet, h] <;>
      simpa [cacheDel] using ih

/-- One hit of an executed query's response: the matched record's id and its
relevance score, which the engine may report as null. -/
structure Hit where
  id : Int
  score : Option Int
deriving Repr, DecidableEq

/-- The id column of every hit, in the response's relevance order. -/
def hitIds (hits : List Hit) : List Int := hits.map (fun h => h.id)

/-- The `(id, score)` WHEN branches of the `search_score` projection: each
hit's id mapped to its score, a null score replaced by 0. -/
def scoreCases : List Hit → List (Int × Int)
  | [] => []
  | h :: hs => (h.id, h.score.getD 0) :: scoreCases hs

/-- The `(id, rank)` WHEN branches of the `search_rank` projection: each hit's
id mapped to its 0-based position in the hit order, starting from `k`. -/
def rankCasesFrom (k : Nat) : List Hit → List (Int × Nat)
  | [] => []
  | h :: hs => (h.id, k) :: rankCasesFrom (k + 1) hs

/-- `CASE pk WHEN k1 THEN v1 WHEN k2 THEN v2 ... ELSE d END`. -/
def caseWhen {α : Type} (cases : List (Int × α)) (d : α) (x : Int) : α :=
  match cases with
  | [] => d
  | (k, v) :: rest => if x = k then v else caseWhen rest d x

/-- The single backing-store query built by `from_search_query`: one filter by
`id IN (hit ids)`, two CASE/WHEN conditional projections (`search_score` and
`search_rank`), and an ORDER BY `search_rank` ascending fixed by construction
(never by score). -/
structure RankedQuery where
  filterIds : List Int
  score_cases : List (Int × Int)
  rank_cases : List (Int × Nat)
deriving Repr, DecidableEq

/-- Modelled from the spec: `from_search_query` — build the one conditional-
ranking query from the hit list: filter ids in hit order, score projection
mapping each id to its score (null as 0), rank projection mapping each id to
its 0-based hit position.  (The `SearchDocumentManagerMixin` body of
`elasticsearch_django.models` is absent from the sources; this follows spec
§4.6 and `test_from_search_query` / `test__raw_sql`.) -/
def fromSearchQuery (hits : List Hit) : RankedQuery :=
  { filterIds := hitIds hits,
    score_cases := scoreCases hits,
    rank_cases := rankCasesFrom 0 hits }

/-- A backing-store row returned by the ranked query: the record's primary key
and the two computed ranking columns. -/
structure AnnotatedRow where
  id : Int
  search_score : Int
  search_rank : Nat
deriving Repr, DecidableEq

/-- Evaluate the two CASE/WHEN projections on one backing-store row. -/
def annotateRow (q : RankedQuery) (pk : Int) : AnnotatedRow :=
  ⟨pk, caseWhen q.score_cases 0 pk, caseWhen q.rank_cases 0 pk⟩

/-- ORDER BY `search_rank` ascending. -/
def rowLE (a b : AnnotatedRow) : Prop := a.search_rank ≤ b.search_rank

instance : DecidableRel rowLE := fun a b => Nat.decLe a.search_rank b.search_rank

/-- The backing store's answer to the one ranked query: keep the rows whose id
is in the IN-filter, compute the two projected columns per row, and return them
ordered by `search_rank` ascending.  `store` is the set of primary keys present
in the backing table. -/
def executeQuery (q : RankedQuery) (store : List Int) : List AnnotatedRow :=
  List.insertionSort rowLE
    ((store.filter (fun pk => q.filterIds.contains pk)).map (annotateRow q))

/-- The result set promised by the spec's words, written independently of the
query mechanism: walk the hits in their original order, keep those whose id has
a backing record, and annotate each with its score (null as 0) and its 0-based
hit position. -/
def specRankedRows (store : List Int) : List Hit → Nat → List AnnotatedRow
  | [], _ => []
  | h :: hs, k =>
    if store.contains h.id then
      ⟨h.id, h.score.getD 0, k⟩ :: specRankedRows store hs (k + 1)
    else specRankedRows store hs (k + 1)

/-- The WHEN/THEN clauses of `_raw_sql`, rendered as SQL text. -/
def whenThen : List (Int × Int) → String
  | [] => ""
  | (k, v) :: rest => " WHEN " ++ toString k ++ " THEN " ++ toString v ++ whenThen rest

/-- `_raw_sql`: the conditional projection as a single SQL CASE expression over
the primary-key column.  (Modelled from the spec's single-query conditional-
ranking projection, pinned by `test__raw_sql`.) -/
def rawSql (pkColumn : String) (cases : List (Int × Int)) : String :=
  "SELECT CASE " ++ pkColumn ++ whenThen cases ++ " ELSE 0 END"

/-- A raw query body: the engine DSL's top-level parameters, of which the
paging properties read `from` and `size`. -/
structure QueryBody where
  params : List (String × Int)
deriving Repr, DecidableEq

/-- `query.get(key, default)`. -/
def qGet (q : QueryBody) (k : String) (d : Int) : Int :=
  match q.params.find? (fun kv => kv.1 == k) with
  | some kv => kv.2
  | none => d

/-- The in-memory `SearchQuery` analytics object as the paging and score
properties see it: the optional raw query body and the raw hit list. -/
structure SearchQueryView where
  query : Option QueryBody
  hits : List Hit
deriving Repr, DecidableEq

/-- Modelled from the spec: `page_slice` — the requested `(from, size)` window
taken straight from the query body (`from` defaulting to 0, `size` to 10), and
`None` when no query body is set; it does not look at the hits.  (The
`SearchQuery` body of `elasticsearch_django.models` is absent from the sources;
pinned by `test_paging`.) -/
def pageSlice (sq : SearchQueryView) : Option (Int × Int) :=
  match sq.query with
  | none => none
  | some q => some (qGet q "from" 0, qGet q "size" 10)

/-- Modelled from the spec: `page_size` — the number of hits actually in the
page. -/
def pageSize (sq : SearchQueryView) : Nat := sq.hits.length

/-- Modelled from the spec: `page_from` — the 1-based index of the first hit,
0 when the page is empty regardless of the requested window. -/
def pageFrom (sq : SearchQueryView) : Int :=
  if pageSize sq = 0 then 0
  else (match pageSlice sq with
        | some p => p.1
        | none => 0) + 1

/-- Modelled from the spec: `page_to` — the 1-based index of the last hit, 0
when the page is empty regardless of the requested window. -/
def pageTo (sq : SearchQueryView) : Int :=
  if pageSize sq = 0 then 0 else pageFrom sq + pageSize sq - 1

/-- Every hit's score, a null score read as 0, never dropped. -/
def hitScores (sq : SearchQueryView) : List Int :=
  sq.hits.map (fun h => h.score.getD 0)

/-- Modelled from the spec: `max_score` — the greatest score over the hits, 0
when there are none. -/
def max_score (sq : SearchQueryView) : Int :=
  match hitScores sq with
  | [] => 0
  | s :: rest => rest.foldl max s

/-- Modelled from the spec: `min_score` — the least score over the hits, 0
when there are none. -/
def min_score (sq : SearchQueryView) : Int :=
  match hitScores sq with
  | [] => 0
  | s :: rest => rest.foldl min s

/-- A transport-layer failure raised by the engine client, carrying the status
code and the engine's reason (`elasticsearch.exceptions.TransportError`). -/
structure TransportErrorData where
  status_code : Int
  error : String
deriving Repr, DecidableEq

/-- What one iteration of `BaseSearchCommand.handle` ends up logging as its
`data`: the command's result on success, or the `{"index": ..., "status": ...,
"reason": ...}` record built from the transport failure. -/
inductive IndexData (D : Type) where
  | result (d : D)
  | failed (index : String) (status : Int) (reason : String)
deriving Repr, DecidableEq

/-- One logger call made by `BaseSearchCommand.handle`: the `logger.warning`
on a transport failure, or the unconditional `logger.info(data)`. -/
inductive LogEntry (D : Type) where
  | warningLog (status : Int) (reason : String)
  | infoLog (data : IndexData D)
deriving Repr, DecidableEq

/-- `BaseSearchCommand.handle` (from
`elasticsearch_django/management/commands/__init__.py`): run
`do_index_command` on each named index in turn; a `TransportError` is caught,
logged as a warning, and turned into the failure `data` record; the `finally`
block logs `data` for every index, success or failure; iteration always
continues to the next index. -/
def handle {D : Type} (doIndexCommand : String → Except TransportErrorData D) :
    List String → List (LogEntry D)
  | [] => []
  | index :: rest =>
    match doIndexCommand index with
    | .ok d => .infoLog (.result d) :: handle doIndexCommand rest
    | .error ex =>
      .warningLog ex.status_code ex.error ::
        .infoLog (.failed index ex.status_code ex.error) ::
          handle doIndexCommand rest

/-- Whether a log entry is one of the unconditional per-index `logger.info`
outcome records. -/
def isInfoLog {D : Type} : LogEntry D → Bool
  | .infoLog _ => true
  | .warningLog _ _ => false

theorem hitIds_cons (h : Hit) (hs : List Hit) :
    hitIds (h :: hs) = h.id :: hitIds hs := rfl

theorem caseWhen_rankCasesFrom_lb (hits : List Hit) (k : Nat) (x : Int)
    (hx : x ∈ hitIds hits) : k ≤ caseWhen (rankCasesFrom k hits) 0 x := by
  induction hits generalizing k with
  | nil => simp [hitIds] at hx
  | cons h hs ih =>
    rw [hitIds_cons, List.mem_cons] at hx
    by_cases hxh : x = h.id
    · simp [rankCasesFrom, caseWhen, hxh]
    · have hxs : x ∈ hitIds hs := hx.resolve_left hxh
      have := ih (k + 1) hxs
      simp only [rankCasesFrom, caseWhen, if_neg hxh]
      omega

theorem caseWhen_rankCasesFrom_inj (hits : List Hit) (k : Nat)
    (hnd : (hitIds hits).Nodup) (x y : Int)
    (hx : x ∈ hitIds hits) (hy : y ∈ hitIds hits)
    (heq : caseWhen (rankCasesFrom k hits) 0 x
            = caseWhen (rankCasesFrom k hits) 0 y) : x = y := by
  induction hits generalizing k with
  | nil => simp [hitIds] at hx
  | cons h hs ih =>
    rw [hitIds_cons] at hnd hx hy
    rw [List.mem_cons] at hx hy
    have hh : h.id ∉ hitIds hs := (List.nodup_cons.1 hnd).1
    have hnd' : (hitIds hs).Nodup := (List.nodup_cons.1 hnd).2
    by_cases hxh : x = h.id <;> by_cases hyh : y = h.id
    · rw [hxh, hyh]
    · exfalso
      have hys : y ∈ hitIds hs := hy.resolve_left hyh
      have hlb := caseWhen_rankCasesFrom_lb hs (k + 1) y hys
      simp only [rankCasesFrom, caseWhen, if_pos hxh, if_neg hyh] at heq
      omega
    · exfalso
      have hxs : x ∈ hitIds hs := hx.resolve_left hxh
      have hlb := caseWhen_rankCasesFrom_lb hs (k + 1) x hxs
      simp only [rankCasesFrom, caseWhen, if_neg hxh, if_pos hyh] at heq
      omega
    · have hxs : x ∈ hitIds hs := hx.resolve_left hxh
      have hys : y ∈ hitIds hs := hy.resolve_left hyh
      simp only [rankCasesFrom, caseWhen, if_neg hxh, if_neg hyh] at heq
      exact ih (k + 1) hnd' hxs hys heq

theorem specRankedRows_eq_map (store : List Int) (hits : List Hit) (k : Nat)
    (hnd : (hitIds hits).Nodup) :
    specRankedRows store hits k
      = ((hitIds hits).filter (fun i => store.contains i)).map
          (fun i => ⟨i, caseWhen (scoreCases hits) 0 i,
                     caseWhen (rankCasesFrom k hits) 0 i⟩) := by
  induction hits generalizing k with
  | nil => rfl
  | cons h hs ih =>
    rw [hitIds_cons] at hnd ⊢
    have hh : h.id ∉ hitIds hs := (List.nodup_cons.1 hnd).1
    have hnd' : (hitIds hs).Nodup := (List.nodup_cons.1 hnd).2
    have htail :
        ((hitIds hs).filter (fun i => store.contains i)).map
            (fun i => (⟨i, caseWhen (scoreCases (h :: hs)) 0 i,
                       caseWhen (rankCasesFrom k (h :: hs)) 0 i⟩ : AnnotatedRow))
          = ((hitIds hs).filter (fun i => store.contains i)).map
              (fun i => ⟨i, caseWhen (scoreCases hs) 0 i,
                         caseWhen (rankCasesFrom (k + 1) hs) 0 i⟩) := by
      apply List.map_congr_left
      intro i hi
      have his : i ∈ hitIds hs := (List.mem_filter.1 hi).1
      have hne : i ≠ h.id := fun hih => hh (hih ▸ his)
      simp only [scoreCases, rankCasesFrom, caseWhen, if_neg hne]
    by_cases hc : store.contains h.id
    · rw [specRankedRows, if_pos hc]
      simp only [List.filter_cons, hc, if_true, List.map_cons]
      rw [ih (k + 1) hnd', htail]
      congr 1
      simp [scoreCases, rankCasesFrom, caseWhen]
    · have hc' : store.contains h.id = false := by
        simpa using hc
      rw [specRankedRows, if_neg hc]
      have hfil : List.filter (fun i => store.contains i) (h.id :: hitIds hs)
          = List.filter (fun i => store.contains i) (hitIds hs) := by
        rw [List.filter_cons, hc']
        simp
      rw [hfil, htail, ih (k + 1) hnd']

theorem specRankedRows_rank_lb (store : List Int) (hits : List Hit) (k : Nat) :
    ∀ r ∈ specRankedRows store hits k, k ≤ r.search_rank := by
  induction hits generalizing k with
  | nil => intro r hr; simp [specRankedRows] at hr
  | cons h hs ih =>
    intro r hr
    by_cases hc : store.contains h.id
    · simp only [specRankedRows, if_pos hc, List.mem_cons] at hr
      rcases hr with hr | hr
      · rw [hr]
      · have := ih (k + 1) r hr
        omega
    · simp only [specRankedRows, if_neg hc] at hr
      have := ih (k + 1) r hr
      omega

theorem specRankedRows_sorted (store : List Int) (hits : List Hit) (k : Nat) :
    List.Pairwise (fun a b : AnnotatedRow => a.search_rank < b.search_rank)
      (specRankedRows store hits k) := by
  induction hits generalizing k with
  | nil => exact List.Pairwise.nil
  | cons h hs ih =>
    by_cases hc : store.contains h.id
    · simp only [specRankedRows, if_pos hc]
      refine List.Pairwise.cons ?_ (ih (k + 1))
      intro b hb
      have := specRankedRows_rank_lb store hs (k + 1) b hb
      simp only []
      omega
    · simp only [specRankedRows, if_neg hc]
      exact ih (k + 1)

theorem filter_store_perm (store : List Int) (hits : List Hit)
    (h1 : (hitIds hits).Nodup) (h2 : store.Nodup) :
    (store.filter (fun pk => (hitIds hits).contains pk)).Perm
      ((hitIds hits).filter (fun i => store.contains i)) := by
  apply (List.perm_ext_iff_of_nodup (h2.filter _) (h1.filter _)).2
  intro a
  simp only [List.mem_filter, List.elem_iff]
  exact and_comm

theorem pairwise_ne_rank (hits : List Hit) (hnd : (hitIds hits).Nodup)
    (l : List Int) (hl : l.Nodup) (hsub : ∀ x ∈ l, x ∈ hitIds hits) :
    List.Pairwise (fun a b : AnnotatedRow => a.search_rank ≠ b.search_rank)
      (l.map (annotateRow (fromSearchQuery hits))) := by
  rw [List.pairwise_map]
  induction l with
  | nil => exact List.Pairwise.nil
  | cons x l ih =>
    have hx : x ∈ hitIds hits := hsub x (List.mem_cons_self x l)
    refine List.Pairwise.cons ?_
      (ih (List.nodup_cons.1 hl).2 (fun y hy => hsub y (List.mem_cons_of_mem x hy)))
    intro y hy heq
    have hxy : x ≠ y := fun hxyeq => (List.nodup_cons.1 hl).1 (hxyeq ▸ hy)
    exact hxy (caseWhen_rankCasesFrom_inj hits 0 hnd x y hx
      (hsub y (List.mem_cons_of_mem x hy)) heq)

theorem pairwise_lt_of_le_ne {l : List AnnotatedRow}
    (hle : List.Pairwise rowLE l)
    (hne : List.Pairwise (fun a b => a.search_rank ≠ b.search_rank) l) :
    List.Pairwise (fun a b : AnnotatedRow => a.search_rank < b.search_rank) l := by
  induction l with
  | nil => exact List.Pairwise.nil
  | cons x l ih =>
    cases hle with
    | cons hx1 h1 =>
      cases hne with
      | cons hx2 h2 =>
        exact List.Pairwise.cons
          (fun y hy => Nat.lt_of_le_of_ne (hx1 y hy) (hx2 y hy)) (ih h1 h2)

instance : IsTotal AnnotatedRow rowLE :=
  ⟨fun a b => Nat.le_total a.search_rank b.search_rank⟩

instance : IsTrans AnnotatedRow rowLE :=
  ⟨fun _ _ _ hab hbc => Nat.le_trans hab hbc⟩

instance : IsAntisymm AnnotatedRow (fun a b => a.search_rank < b.search_rank) :=
  ⟨fun _ _ h1 h2 => absurd (Nat.lt_trans h1 h2) (Nat.lt_irrefl _)⟩

theorem annotateRow_fromSearchQuery (hits : List Hit) (i : Int) :
    annotateRow (fromSearchQuery hits) i
      = ⟨i, caseWhen (scoreCases hits) 0 i, caseWhen (rankCasesFrom 0 hits) 0 i⟩ := rfl

theorem executeQuery_eq_spec (hits : List Hit) (store : List Int)
    (h1 : (hitIds hits).Nodup) (h2 : store.Nodup) :
    executeQuery (fromSearchQuery hits) store = specRankedRows store hits 0 := by
  have hrows :
      (store.filter (fun pk => (fromSearchQuery hits).filterIds.contains pk)).map
          (annotateRow (fromSearchQuery hits))
        |>.Perm (specRankedRows store hits 0) := by
    rw [specRankedRows_eq_map store hits 0 h1]
    exact (filter_store_perm store hits h1 h2).map (annotateRow (fromSearchQuery hits))
  have hperm : (executeQuery (fromSearchQuery hits) store).Perm
      (specRankedRows store hits 0) :=
    (List.perm_insertionSort rowLE _).trans hrows
  have hsub : ∀ x ∈ store.filter
      (fun pk => (fromSearchQuery hits).filterIds.contains pk), x ∈ hitIds hits := by
    intro x hx
    have := (List.mem_filter.1 hx).2
    simpa [fromSearchQuery, List.elem_iff] using this
  have hne0 :
      List.Pairwise (fun a b : AnnotatedRow => a.search_rank ≠ b.search_rank)
        ((store.filter (fun pk => (fromSearchQuery hits).filterIds.contains pk)).map
          (annotateRow (fromSearchQuery hits))) :=
    pairwise_ne_rank hits h1 _ (h2.filter _) hsub
  have hne :
      List.Pairwise (fun a b : AnnotatedRow => a.search_rank ≠ b.search_rank)
        (executeQuery (fromSearchQuery hits) store) :=
    ((List.perm_insertionSort rowLE _).pairwise_iff (fun h => h.symm)).2 hne0
  have hsortedLE : List.Pairwise rowLE (executeQuery (fromSearchQuery hits) store) :=
    List.sorted_insertionSort rowLE _
  exact List.eq_of_perm_of_sorted hperm
    (pairwise_lt_of_le_ne hsortedLE hne) (specRankedRows_sorted store hits 0)


theorem cleanUpdateFields_of_find_none (e : Entity) (props ufs : List String)
    (hfind : (ufs.filter (fun f => props.contains f)).find?
        (fun f => ! isFieldSerializable e f) = none) :
    cleanUpdateFields e props ufs = .ok (ufs.filter (fun f => props.contains f)) := by
  unfold cleanUpdateFields
  simp only []
  rw [hfind]

theorem cleanUpdateFields_of_find_some (e : Entity) (props ufs : List String)
    (g : String)
    (hfind : (ufs.filter (fun f => props.contains f)).find?
        (fun f => ! isFieldSerializable e f) = some g) :
    cleanUpdateFields e props ufs = .error (.invalidUpdate g) := by
  unfold cleanUpdateFields
  simp only []
  rw [hfind]

/-- A concrete entity mirroring the tests' `ExampleModel(pk=1,
simple_field_1=1, simple_field_2="foo")`, with a non-serializable complex
field. -/
def exampleEntity : Entity :=
  { pk := 1,
    cacheKey := "elasticsearch_django:examplemodel.1",
    attrs := [("simple_field_1", .pyInt 1), ("simple_field_2", .pyStr "foo"),
              ("complex_field", .pyExotic "ComplexField object")],
    asSearchDocument := fun _ =>
      [("simple_field_1", .pyInt 1), ("simple_field_2", .pyStr "foo")] }

/-- C3: for every entity and requested field list, `clean_update_fields`
returns exactly the requested fields that are both in the index mapping and
serializable on this instance; a requested field in the mapping but not
serializable raises `InvalidUpdate`; a requested field absent from the mapping
is silently dropped with no error. -/
theorem claim_C3_clean_update_fields (e : Entity) (props ufs : List String) :
    (∀ fs, cleanUpdateFields e props ufs = .ok fs →
        fs = ufs.filter (fun f => props.contains f && isFieldSerializable e f)) ∧
    ((∃ f, f ∈ ufs ∧ props.contains f = true ∧ isFieldSerializable e f = false) →
        ∃ g, cleanUpdateFields e props ufs = .error (.invalidUpdate g)) ∧
    ((∀ f, f ∈ ufs → props.contains f = true → isFieldSerializable e f = true) →
        cleanUpdateFields e props ufs = .ok (ufs.filter (fun f => props.contains f))) := by
  cases hfind : (ufs.filter (fun f => props.contains f)).find?
      (fun f => ! isFieldSerializable e f) with
  | none =>
    have hser : ∀ f ∈ ufs.filter (fun f => props.contains f),
        isFieldSerializable e f = true := by
      intro f hf
      have := List.find?_eq_none.1 hfind f hf
      simpa using this
    refine ⟨?_, ?_, ?_⟩
    · intro fs hok
      rw [cleanUpdateFields_of_find_none e props ufs hfind] at hok
      cases hok
      apply List.filter_congr
      intro f hf
      by_cases hc : props.contains f
      · have hmem : f ∈ ufs.filter (fun g => props.contains g) :=
          List.mem_filter.2 ⟨hf, hc⟩
        rw [hc]
        simpa using hser f hmem
      · have hc2 : props.contains f = false := by simpa using hc
        rw [hc2]
        rfl
    · rintro ⟨f, hf, hc, hs⟩
      exact absurd (hser f (List.mem_filter.2 ⟨hf, hc⟩)) (by simp [hs])
    · intro _
      exact cleanUpdateFields_of_find_none e props ufs hfind
  | some g =>
    have hg : g ∈ ufs.filter (fun f => props.contains f) :=
      List.mem_of_find?_eq_some hfind
    have hgbad : isFieldSerializable e g = false := by
      have := List.find?_some hfind
      simpa using this
    refine ⟨?_, ?_, ?_⟩
    · intro fs hok
      rw [cleanUpdateFields_of_find_some e props ufs g hfind] at hok
      cases hok
    · intro _
      exact ⟨g, cleanUpdateFields_of_find_some e props ufs g hfind⟩
    · intro hall
      have hmem := List.mem_filter.1 hg
      have := hall g hmem.1 (by simpa using hmem.2)
      rw [this] at hgbad
      cases hgbad

/-- C3 witness: on the example entity with mapping
`["simple_field_1", "complex_field"]`, requesting the serializable mapped
field together with an unmapped field returns just the mapped field, and
requesting the mapped but non-serializable complex field errors. -/
theorem claim_C3_witness :
    cleanUpdateFields exampleEntity ["simple_field_1", "complex_field"]
        ["simple_field_1", "simple_field_2"] = .ok ["simple_field_1"] ∧
    ∃ g, cleanUpdateFields exampleEntity ["simple_field_1", "complex_field"]
        ["simple_field_1", "complex_field"] = .error (.invalidUpdate g) := by
  constructor
  · have h := (claim_C3_clean_update_fields exampleEntity
      ["simple_field_1", "complex_field"] ["simple_field_1", "simple_field_2"]).2.2
      (by decide)
    simpa using h
  · exact (claim_C3_clean_update_fields exampleEntity
      ["simple_field_1", "complex_field"] ["simple_field_1", "complex_field"]).2.1
      ⟨"complex_field", by decide, by decide, by decide⟩

/-- C4: with update strategy FULL, `as_search_document_update` equals the
full `as_search_document` output whatever the requested fields; with strategy
PARTIAL it returns exactly the mapping from each cleaned update field to the
entity current value for that field, and the empty document when cleaning
yields no fields. -/
theorem claim_C4_update_strategy (e : Entity) (i : String) (props ufs : List String) :
    asSearchDocumentUpdate e .UPDATE_STRATEGY_FULL i props ufs
        = .ok (e.asSearchDocument i) ∧
    (∀ fs, cleanUpdateFields e props ufs = .ok fs →
        ∃ d, asSearchDocumentUpdate e .UPDATE_STRATEGY_PARTIAL i props ufs = .ok d ∧
          (∀ f v, (f, v) ∈ d ↔ f ∈ fs ∧ attrGet e f = some v) ∧
          (fs = [] → d = [])) := by
  refine ⟨rfl, ?_⟩
  intro fs hok
  refine ⟨fs.filterMap (fun f => (attrGet e f).map (fun v => (f, v))), ?_, ?_, ?_⟩
  · simp [asSearchDocumentUpdate, hok, Except.map]
  · intro f v
    constructor
    · intro hmem
      rcases List.mem_filterMap.1 hmem with ⟨a, ha, hmap⟩
      rcases Option.map_eq_some'.1 hmap with ⟨w, hw, hpair⟩
      cases hpair
      exact ⟨ha, hw⟩
    · rintro ⟨hf, hv⟩
      exact List.mem_filterMap.2 ⟨f, hf, by rw [hv]; rfl⟩
  · rintro rfl
    rfl

/-- C4 witness: on the example entity with both simple fields mapped, FULL
ignores the requested fields and returns the full document, and PARTIAL
returns exactly the two requested mapped fields with their current values. -/
theorem claim_C4_witness :
    asSearchDocumentUpdate exampleEntity .UPDATE_STRATEGY_FULL "_all"
        ["simple_field_1"] ["simple_field_1", "simple_field_2"]
      = .ok (exampleEntity.asSearchDocument "_all") ∧
    ∃ d, asSearchDocumentUpdate exampleEntity .UPDATE_STRATEGY_PARTIAL "_all"
        ["simple_field_1", "simple_field_2"] ["simple_field_1", "simple_field_2"]
      = .ok d ∧
      (∀ f v, (f, v) ∈ d ↔
        f ∈ ["simple_field_1", "simple_field_2"] ∧ attrGet exampleEntity f = some v) := by
  constructor
  · exact (claim_C4_update_strategy exampleEntity "_all" ["simple_field_1"]
      ["simple_field_1", "simple_field_2"]).1
  · rcases (claim_C4_update_strategy exampleEntity "_all"
        ["simple_field_1", "simple_field_2"] ["simple_field_1", "simple_field_2"]).2
        ["simple_field_1", "simple_field_2"] rfl with ⟨d, hd, hiff, hnil⟩
    exact ⟨d, hd, hiff⟩

theorem indexSearchDocument_not_cached (e : Entity) (i : String) (s : WriterState)
    (h : cacheGet s.cache e.cacheKey ≠ some (e.asSearchDocument i)) :
    indexSearchDocument e i s
      = ({ cache := cacheSet s.cache e.cacheKey (e.asSearchDocument i),
           calls := s.calls ++ [EngineCall.indexCall i e.pk (e.asSearchDocument i)] },
         WriteReason.wrote) := by
  unfold indexSearchDocument
  rw [if_neg h]

theorem indexSearchDocument_cached (e : Entity) (i : String) (s : WriterState)
    (h : cacheGet s.cache e.cacheKey = some (e.asSearchDocument i)) :
    indexSearchDocument e i s = (s, WriteReason.skippedDuplicate) := by
  unfold indexSearchDocument
  rw [if_pos h]

/-- C1: for every entity and index, two successive `index_search_document`
calls with no intervening field change make exactly one engine `index` call:
the first builds the document, calls engine `index` and stores the document in
the Sync Cache; the second finds the cached value equal to the new document
and performs no engine call (the duplicate skip). -/
theorem claim_C1_index_twice_one_call (e : Entity) (i : String) (s : WriterState)
    (h : cacheGet s.cache e.cacheKey ≠ some (e.asSearchDocument i)) :
    (indexSearchDocument e i s).1.calls
        = s.calls ++ [EngineCall.indexCall i e.pk (e.asSearchDocument i)] ∧
    (indexSearchDocument e i s).2 = WriteReason.wrote ∧
    cacheGet (indexSearchDocument e i s).1.cache e.cacheKey
        = some (e.asSearchDocument i) ∧
    indexSearchDocument e i (indexSearchDocument e i s).1
        = ((indexSearchDocument e i s).1, WriteReason.skippedDuplicate) := by
  have h1 := indexSearchDocument_not_cached e i s h
  have h2 : cacheGet (indexSearchDocument e i s).1.cache e.cacheKey
      = some (e.asSearchDocument i) := by
    rw [h1]
    exact cacheGet_cacheSet_self s.cache e.cacheKey (e.asSearchDocument i)
  exact ⟨by rw [h1], by rw [h1], h2,
    indexSearchDocument_cached e i (indexSearchDocument e i s).1 h2⟩

/-- C1 witness: indexing the example entity twice from an empty cache results
in one engine index call, a cache entry holding the document, and a duplicate
skip on the second call. -/
theorem claim_C1_witness :
    (indexSearchDocument exampleEntity "_all" ⟨[], []⟩).1.calls
        = [] ++ [EngineCall.indexCall "_all" exampleEntity.pk
                   (exampleEntity.asSearchDocument "_all")] ∧
    (indexSearchDocument exampleEntity "_all" ⟨[], []⟩).2 = WriteReason.wrote ∧
    cacheGet (indexSearchDocument exampleEntity "_all" ⟨[], []⟩).1.cache
        exampleEntity.cacheKey = some (exampleEntity.asSearchDocument "_all") ∧
    indexSearchDocument exampleEntity "_all"
        (indexSearchDocument exampleEntity "_all" ⟨[], []⟩).1
      = ((indexSearchDocument exampleEntity "_all" ⟨[], []⟩).1,
         WriteReason.skippedDuplicate) :=
  claim_C1_index_twice_one_call exampleEntity "_all" ⟨[], []⟩
    (by simp [cacheGet])

/-- C6: `delete_search_document` calls engine `delete` and invalidates the
Sync Cache entry unconditionally, whatever the engine outcome, so a subsequent
`index_search_document` carrying the same document content is not treated as a
duplicate and does reach the engine. -/
theorem claim_C6_delete_invalidates_cache (e : Entity) (i : String)
    (engineOk : Bool) (s : WriterState) :
    cacheGet (deleteSearchDocument e i engineOk s).1.cache e.cacheKey = none ∧
    (deleteSearchDocument e i engineOk s).1.calls
        = s.calls ++ [EngineCall.deleteCall i e.pk] ∧
    (indexSearchDocument e i (deleteSearchDocument e i engineOk s).1).2
        = WriteReason.wrote ∧
    (indexSearchDocument e i (deleteSearchDocument e i engineOk s).1).1.calls
        = (deleteSearchDocument e i engineOk s).1.calls
            ++ [EngineCall.indexCall i e.pk (e.asSearchDocument i)] := by
  have hnone : cacheGet (deleteSearchDocument e i engineOk s).1.cache e.cacheKey
      = none := cacheGet_cacheDel_self s.cache e.cacheKey
  have hne : cacheGet (deleteSearchDocument e i engineOk s).1.cache e.cacheKey
      ≠ some (e.asSearchDocument i) := by
    rw [hnone]
    exact Option.noConfusion
  have hstep := indexSearchDocument_not_cached e i
    (deleteSearchDocument e i engineOk s).1 hne
  exact ⟨hnone, rfl, by rw [hstep], by rw [hstep]⟩

/-- C7: when the strategy-built update document is empty,
`update_search_document` performs zero engine calls and leaves both the engine
call log and the Sync Cache unchanged; this no-op reason is distinct from the
duplicate-skip reason. -/
theorem claim_C7_empty_update_noop (e : Entity) (i : String)
    (strat : UpdateStrategy) (props ufs : List String) (s : WriterState)
    (h : asSearchDocumentUpdate e strat i props ufs = .ok []) :
    updateSearchDocument e i strat props ufs s = .ok (s, WriteReason.skippedEmpty) ∧
    WriteReason.skippedEmpty ≠ WriteReason.skippedDuplicate := by
  refine ⟨?_, fun hcon => WriteReason.noConfusion hcon⟩
  unfold updateSearchDocument
  rw [h]
  rfl

/-- C7 witness: a PARTIAL update of the example entity requesting no fields
builds the empty update document and is a complete no-op on any starting
state. -/
theorem claim_C7_witness :
    updateSearchDocument exampleEntity "_all" .UPDATE_STRATEGY_PARTIAL
        ["simple_field_1"] [] ⟨[], []⟩
      = .ok (⟨[], []⟩, WriteReason.skippedEmpty) ∧
    WriteReason.skippedEmpty ≠ WriteReason.skippedDuplicate :=
  claim_C7_empty_update_noop exampleEntity "_all" .UPDATE_STRATEGY_PARTIAL
    ["simple_field_1"] [] ⟨[], []⟩ rfl

/-- C2: `from_search_query` issues one backing-store query filtering by id IN
(hit ids) whose `search_score` and `search_rank` columns are single
CASE/WHEN-style conditional projections (score 0 when null, rank the 0-based
hit position), ordered by `search_rank` ascending and never by score, so for
every hit list over distinct ids the returned rows match the original hit
order; and `_raw_sql` renders the projection as the expected single CASE
expression. -/
theorem claim_C2_ranked_retrieval_order (hits : List Hit) (store : List Int)
    (hNodupHits : (hitIds hits).Nodup) (hNodupStore : store.Nodup) :
    executeQuery (fromSearchQuery hits) store = specRankedRows store hits 0 ∧
    rawSql "tests_examplemodel.\"id\"" [(1, 2), (3, 4)]
      = "SELECT CASE tests_examplemodel.\"id\" WHEN 1 THEN 2 WHEN 3 THEN 4 ELSE 0 END" :=
  ⟨executeQuery_eq_spec hits store hNodupHits hNodupStore, rfl⟩

/-- C2 witness: for hits with ids 1 and 2 (scores 1 and 2, then a null first
score) over a store containing ids 1, 2 and 3, the ranked result follows the
hit order with the null score resolved to 0. -/
theorem claim_C2_witness :
    executeQuery (fromSearchQuery [⟨1, some 1⟩, ⟨2, some 2⟩]) [3, 2, 1]
        = specRankedRows [3, 2, 1] [⟨1, some 1⟩, ⟨2, some 2⟩] 0 ∧
    executeQuery (fromSearchQuery [⟨1, none⟩, ⟨2, some 2⟩]) [3, 2, 1]
        = specRankedRows [3, 2, 1] [⟨1, none⟩, ⟨2, some 2⟩] 0 ∧
    specRankedRows [3, 2, 1] [⟨1, none⟩, ⟨2, some 2⟩] 0
        = [⟨1, 0, 0⟩, ⟨2, 2, 1⟩] :=
  ⟨(claim_C2_ranked_retrieval_order [⟨1, some 1⟩, ⟨2, some 2⟩] [3, 2, 1]
      (by decide) (by decide)).1,
   (claim_C2_ranked_retrieval_order [⟨1, none⟩, ⟨2, some 2⟩] [3, 2, 1]
      (by decide) (by decide)).1,
   rfl⟩

/-- C5: persisting a Search Query never raises on non-JSON-serializable values
in the query body or the hits: saving coerces every such value to its string
form, so after save and reload a date stored in the query equals its ISO-8601
string and a decimal stored in the hits equals its decimal string, and both
stored payloads are fully JSON-serializable. -/
theorem claim_C5_save_serialization_fallback (sq : SearchQueryRecord)
    (qkvs hkvs : List (String × PyValue)) (kq kh iso dec : String)
    (hq : sq.query = PyValue.pyDict qkvs) (hh : sq.hits = PyValue.pyDict hkvs)
    (hdate : dictGet qkvs kq = some (.pyDate iso))
    (hdec : dictGet hkvs kh = some (.pyDecimal dec)) :
    isJsonSerializable (saveSearchQuery sq).query = true ∧
    isJsonSerializable (saveSearchQuery sq).hits = true ∧
    (saveSearchQuery sq).query = .pyDict (coerceDict qkvs) ∧
    dictGet (coerceDict qkvs) kq = some (.pyStr iso) ∧
    (saveSearchQuery sq).hits = .pyDict (coerceDict hkvs) ∧
    dictGet (coerceDict hkvs) kh = some (.pyStr dec) := by
  refine ⟨coerceValue_serializable sq.query, coerceValue_serializable sq.hits,
    ?_, ?_, ?_, ?_⟩
  · rw [show (saveSearchQuery sq).query = coerceValue sq.query from rfl, hq]
    rfl
  · rw [coerceDict_dictGet, hdate]
    rfl
  · rw [show (saveSearchQuery sq).hits = coerceValue sq.hits from rfl, hh]
    rfl
  · rw [coerceDict_dictGet, hdec]
    rfl

/-- C5 witness: saving a query holding a date and hits holding a decimal, as
in `test_save`: the reloaded values are the ISO string and the decimal
string. -/
theorem claim_C5_witness :
    isJsonSerializable (saveSearchQuery
        { index := "foo",
          query := .pyDict [("today", .pyDate "2016-08-24")],
          hits := .pyDict [("hits", .pyDecimal "1.0")],
          total_hits := 100, reference := "bar" }).query = true ∧
    isJsonSerializable (saveSearchQuery
        { index := "foo",
          query := .pyDict [("today", .pyDate "2016-08-24")],
          hits := .pyDict [("hits", .pyDecimal "1.0")],
          total_hits := 100, reference := "bar" }).hits = true ∧
    (saveSearchQuery
        { index := "foo",
          query := .pyDict [("today", .pyDate "2016-08-24")],
          hits := .pyDict [("hits", .pyDecimal "1.0")],
          total_hits := 100, reference := "bar" }).query
      = .pyDict (coerceDict [("today", .pyDate "2016-08-24")]) ∧
    dictGet (coerceDict [("today", .pyDate "2016-08-24")]) "today"
      = some (.pyStr "2016-08-24") ∧
    (saveSearchQuery
        { index := "foo",
          query := .pyDict [("today", .pyDate "2016-08-24")],
          hits := .pyDict [("hits", .pyDecimal "1.0")],
          total_hits := 100, reference := "bar" }).hits
      = .pyDict (coerceDict [("hits", .pyDecimal "1.0")]) ∧
    dictGet (coerceDict [("hits", .pyDecimal "1.0")]) "hits"
      = some (.pyStr "1.0") :=
  claim_C5_save_serialization_fallback
    { index := "foo",
      query := .pyDict [("today", .pyDate "2016-08-24")],
      hits := .pyDict [("hits", .pyDecimal "1.0")],
      total_hits := 100, reference := "bar" }
    [("today", .pyDate "2016-08-24")] [("hits", .pyDecimal "1.0")]
    "today" "hits" "2016-08-24" "1.0" rfl rfl rfl rfl

/-- C8: with an empty hit list, `page_from`, `page_to` and `page_size` are 0
whatever the requested window, and `max_score` and `min_score` are 0; three
hits with query from=0, size=25 give (1, 3, 3); hits scored 1 and 2 give
max 2 and min 1. -/
theorem claim_C8_paging_and_scores :
    (∀ q : Option QueryBody,
        pageFrom ⟨q, []⟩ = 0 ∧ pageTo ⟨q, []⟩ = 0 ∧ pageSize ⟨q, []⟩ = 0 ∧
        max_score ⟨q, []⟩ = 0 ∧ min_score ⟨q, []⟩ = 0) ∧
    (∀ h1 h2 h3 : Hit,
        pageFrom ⟨some ⟨[("from", 0), ("size", 25)]⟩, [h1, h2, h3]⟩ = 1 ∧
        pageTo ⟨some ⟨[("from", 0), ("size", 25)]⟩, [h1, h2, h3]⟩ = 3 ∧
        pageSize ⟨some ⟨[("from", 0), ("size", 25)]⟩, [h1, h2, h3]⟩ = 3) ∧
    (∀ i1 i2 : Int,
        max_score ⟨none, [⟨i1, some 1⟩, ⟨i2, some 2⟩]⟩ = 2 ∧
        min_score ⟨none, [⟨i1, some 1⟩, ⟨i2, some 2⟩]⟩ = 1) := by
  refine ⟨fun q => ⟨rfl, rfl, rfl, rfl, rfl⟩, fun h1 h2 h3 => ⟨rfl, rfl, rfl⟩,
    fun i1 i2 => ⟨rfl, rfl⟩⟩

/-- C10: `page_slice` is None when no query body is set, and reflects the
requested (from, size) window even on an empty hit list, for which the other
paging figures are all 0. -/
theorem claim_C10_page_slice (hits : List Hit) :
    pageSlice ⟨none, hits⟩ = none ∧
    pageSlice ⟨some ⟨[("from", 0), ("size", 25)]⟩, []⟩ = some (0, 25) ∧
    pageFrom ⟨some ⟨[("from", 0), ("size", 25)]⟩, []⟩ = 0 ∧
    pageTo ⟨some ⟨[("from", 0), ("size", 25)]⟩, []⟩ = 0 ∧
    pageSize ⟨some ⟨[("from", 0), ("size", 25)]⟩, []⟩ = 0 :=
  ⟨rfl, rfl, rfl, rfl, rfl⟩

/-- C9: `BaseSearchCommand.handle` logs a transport failure as a warning plus
an info record carrying the index name, status code and reason, and continues
with the remaining indexes instead of re-raising; every index, success or
failure, produces exactly one info outcome log, so nothing is silently
swallowed. -/
theorem claim_C9_handle_logs_and_continues {D : Type}
    (doIndexCommand : String → Except TransportErrorData D) :
    (∀ index rest ex, doIndexCommand index = .error ex →
        handle doIndexCommand (index :: rest)
          = .warningLog ex.status_code ex.error
              :: .infoLog (.failed index ex.status_code ex.error)
                :: handle doIndexCommand rest) ∧
    (∀ indexes, (handle doIndexCommand indexes).countP isInfoLog
        = indexes.length) := by
  constructor
  · intro index rest ex hex
    simp only [handle, hex]
  · intro indexes
    induction indexes with
    | nil => rfl
    | cons index rest ih =>
      cases hcmd : doIndexCommand index with
      | ok d =>
        simp [handle, hcmd, List.countP_cons, isInfoLog, ih]
      | error ex =>
        simp [handle, hcmd, List.countP_cons, isInfoLog, ih]

/-- C9 witness: a command that always fails with status 500 still logs a
warning and a failure info record for the index and proceeds (the remaining
index list is handled the same way). -/
theorem claim_C9_witness :
    handle (fun _ => (Except.error ⟨500, "oops"⟩ : Except TransportErrorData Nat))
        ["foo", "bar"]
      = LogEntry.warningLog 500 "oops"
          :: LogEntry.infoLog (.failed "foo" 500 "oops")
            :: handle (fun _ =>
                 (Except.error ⟨500, "oops"⟩ : Except TransportErrorData Nat)) ["bar"] :=
  (claim_C9_handle_logs_and_continues
    (fun _ => (Except.error ⟨500, "oops"⟩ : Except TransportErrorData Nat))).1
    "foo" ["bar"] ⟨500, "oops"⟩ rfl

end ESDjango
